import Mathlib

/-
Verification of the HTTP-to-Unix-socket forwarding proxy
(src/tools/api-testing/proxy-server.py).

The per-request handler `proxy_request` of class `UnixSocketHTTPHandler`
(lines 65-130 of the source) and the `do_OPTIONS` handler (lines 57-63)
are embedded shallowly below.  Byte strings are modelled as `List Nat`
and Python `str` values as Lean `String`.  The Unix-socket backend is a
value of type `Backend` covering each behavior of the socket calls on
lines 89-99: a connect failure, an I/O error of `sendall` or of the
`recv` loop, or a completed exchange given by a function from the request
bytes to the full byte stream read until end of stream.  The inbound body
stream is a `BodyStream`: the bytes available from `rfile` before end of
stream, or a `read` call that raises; `proxy_request_stream` is the
handler over this fallible stream, and `proxy_request` its specialization
to a non-raising stream.
-/

set_option maxHeartbeats 1000000

/-- Byte sequences (Python `bytes`) are modelled as lists of naturals. -/
abbrev Bytes := List Nat

/-- UTF-8 encoding of one character, as Python `str.encode()` produces it. -/
def utf8EncodeChar (c : Char) : Bytes :=
  let n := c.toNat
  if n < 128 then [n]
  else if n < 2048 then [192 + n / 64, 128 + n % 64]
  else if n < 65536 then [224 + n / 4096, 128 + (n / 64) % 64, 128 + n % 64]
  else [240 + n / 262144, 128 + (n / 4096) % 64, 128 + (n / 64) % 64, 128 + n % 64]

/-- UTF-8 encoding of a string: Python `str.encode()` (source lines 86, 130). -/
def encode (s : String) : Bytes := s.data.flatMap utf8EncodeChar

/-- Strict UTF-8 decoding of a byte string: Python `bytes.decode()`
(source line 107).  Returns `none` exactly when CPython raises
`UnicodeDecodeError`: stray continuation bytes, overlong encodings,
surrogate code points, values beyond U+10FFFF, truncated sequences. -/
def utf8Decode : Bytes → Option (List Char)
  | [] => some []
  | b :: rest =>
    if b < 128 then (utf8Decode rest).map (fun cs => Char.ofNat b :: cs)
    else if b < 194 then none
    else if b < 224 then
      match rest with
      | b1 :: rest1 =>
        if 128 ≤ b1 ∧ b1 < 192 then
          (utf8Decode rest1).map (fun cs => Char.ofNat ((b - 192) * 64 + (b1 - 128)) :: cs)
        else none
      | [] => none
    else if b < 240 then
      match rest with
      | b1 :: b2 :: rest2 =>
        if (128 ≤ b1 ∧ b1 < 192) ∧ (128 ≤ b2 ∧ b2 < 192) then
          let n := (b - 224) * 4096 + (b1 - 128) * 64 + (b2 - 128)
          if 2048 ≤ n ∧ ¬ (55296 ≤ n ∧ n < 57344) then
            (utf8Decode rest2).map (fun cs => Char.ofNat n :: cs)
          else none
        else none
      | _ => none
    else if b < 245 then
      match rest with
      | b1 :: b2 :: b3 :: rest3 =>
        if (128 ≤ b1 ∧ b1 < 192) ∧ (128 ≤ b2 ∧ b2 < 192) ∧ (128 ≤ b3 ∧ b3 < 192) then
          let n := (b - 240) * 262144 + (b1 - 128) * 4096 + (b2 - 128) * 64 + (b3 - 128)
          if 65536 ≤ n ∧ n ≤ 1114111 then
            (utf8Decode rest3).map (fun cs => Char.ofNat n :: cs)
          else none
        else none
      | _ => none
    else none

/-- The decimal digit character for `d` (`d` is always a value of `m % 10`). -/
def digitChar : Nat → Char
  | 0 => '0'
  | 1 => '1'
  | 2 => '2'
  | 3 => '3'
  | 4 => '4'
  | 5 => '5'
  | 6 => '6'
  | 7 => '7'
  | 8 => '8'
  | _ => '9'

/-- Decimal digits of `n`, most significant first, pushed onto `acc`.
The fuel argument only bounds the recursion; `fuel ≥ n` is always enough. -/
def natDigitsGo : Nat → Nat → List Char → List Char
  | 0, _, acc => acc
  | fuel + 1, n, acc =>
    if n = 0 then acc else natDigitsGo fuel (n / 10) (digitChar (n % 10) :: acc)

/-- Decimal rendering of a natural number. -/
def natRepr (n : Nat) : String :=
  if n = 0 then "0" else String.mk (natDigitsGo (n + 1) n [])

/-- Python `str` of an `int` (used by the f-string on source line 79 and
`send_header` on line 119): optional minus sign then decimal digits. -/
def pyStrInt (i : Int) : String :=
  if i < 0 then "-" ++ natRepr i.natAbs else natRepr i.natAbs

/-- Numeric value of an ASCII digit character. -/
def digitVal (c : Char) : Nat := c.toNat - 48

/-- Digit tail of a Python integer literal: digits with single underscores
allowed between digits (CPython accepts `1_0`), accumulating the value. -/
def parseDigitsGo : List Char → Nat → Option Nat
  | [], acc => some acc
  | '_' :: c :: rest, acc =>
    if c.isDigit then parseDigitsGo rest (acc * 10 + digitVal c) else none
  | '_' :: [], _ => none
  | c :: rest, acc =>
    if c.isDigit then parseDigitsGo rest (acc * 10 + digitVal c) else none

/-- Unsigned decimal integer: at least one digit, underscores only between
digits. -/
def parseUInt : List Char → Option Nat
  | c :: rest => if c.isDigit then parseDigitsGo rest (digitVal c) else none
  | [] => none

/-- Python `int(s)` for a string argument (source lines 69 and 113):
surrounding whitespace is stripped, an optional single sign is allowed,
then a nonempty ASCII digit sequence (with underscore grouping).  `none`
models the `ValueError` CPython raises otherwise. -/
def pyInt (s : String) : Option Int :=
  let t := ((s.data.dropWhile Char.isWhitespace).reverse.dropWhile Char.isWhitespace).reverse
  match t with
  | '-' :: rest => (parseUInt rest).map (fun m => -(m : Int))
  | '+' :: rest => (parseUInt rest).map (fun m => (m : Int))
  | rest => (parseUInt rest).map (fun m => (m : Int))

/-- Message of the `ValueError` raised by `int()` (the model elides
CPython's quoting of the offending literal). -/
def intErrMsg (s : String) : String := "invalid literal for int with base 10: " ++ s

/-- Source line 69: `int(self.headers.get('Content-Length', 0))`.
A missing header yields the integer 0; a present header value is converted
with `int`, whose `ValueError` propagates to the handler's `except`. -/
def contentLengthVal : Option String → Except String Int
  | none => Except.ok 0
  | some s =>
    match pyInt s with
    | some n => Except.ok n
    | none => Except.error (intErrMsg s)

/-- Does the byte string begin with the blank-line separator 13 10 13 10
(`\r\n\r\n`)? -/
def sepAt (l : Bytes) : Bool :=
  match l with
  | b0 :: b1 :: b2 :: b3 :: _ =>
    if b0 = 13 ∧ b1 = 10 ∧ b2 = 13 ∧ b3 = 10 then true else false
  | _ => false

/-- Index of the first occurrence of `\r\n\r\n`: Python
`response.find(b'\r\n\r\n')` on source line 103, with `none` for -1. -/
def findSep : Bytes → Option Nat
  | [] => none
  | b :: rest => if sepAt (b :: rest) then some 0 else (findSep rest).map (· + 1)

/-- Split a character list at its first space, if any. -/
def splitOnceSpace : List Char → Option (List Char × List Char)
  | [] => none
  | ' ' :: rest => some ([], rest)
  | c :: rest => (splitOnceSpace rest).map (fun pr => (c :: pr.1, pr.2))

/-- Python `s.split(' ', 2)` (source line 112): split on single spaces,
at most twice, keeping the remainder as the last element. -/
def pySplitSpace2 (s : String) : List String :=
  match splitOnceSpace s.data with
  | none => [s]
  | some (a, r1) =>
    match splitOnceSpace r1 with
    | none => [String.mk a, String.mk r1]
    | some (b, r2) => [String.mk a, String.mk b, String.mk r2]

/-- Characters preceding the first `\r\n`, or the whole list when no
`\r\n` occurs. -/
def firstLineChars : List Char → List Char
  | [] => []
  | '\r' :: '\n' :: _ => []
  | c :: rest => c :: firstLineChars rest

/-- Source line 111: `response_headers.split('\r\n')[0]` — the first line
of the decoded header block (`split` never returns an empty list, and its
first element is everything before the first separator occurrence). -/
def firstLineOf (s : String) : String := String.mk (firstLineChars s.data)

/-- An inbound HTTP request as the handler observes it.  The handler reads
only the `Content-Length` and `Content-Type` headers (source lines 69, 80),
so only their values (as produced by the framework's case-insensitive
lookup) are carried; `rfile` is the byte stream available after the header
section, from which the body is read. -/
structure Request where
  method : String
  path : String
  contentLength : Option String
  contentType : Option String
  rfile : Bytes
deriving Repr, DecidableEq

/-- The response sent to the inbound client: status code passed to
`send_response`, the explicitly sent headers in order, and the body bytes
written to `wfile`. -/
structure ClientResponse where
  status : Int
  headers : List (String × String)
  body : Bytes
deriving Repr, DecidableEq

/-- The Unix-socket backend, covering every behavior of the socket calls
on source lines 89-99: `noConnect msg` — the `connect` call (line 90)
raises an `OSError` whose text is `msg`; `sendError msg` — `connect`
succeeds but `sendall` (line 91) raises; `recvError msg` — the request is
delivered but some `recv` of the read loop (line 96) raises before end of
stream; `ok respond` — the exchange completes, and the full byte stream
read until end of stream is `respond request`. -/
inductive Backend where
  | noConnect (msg : String)
  | sendError (msg : String)
  | recvError (msg : String)
  | ok (respond : Bytes → Bytes)

/-- The inbound body stream behind `self.rfile` (source line 70):
`avail bs` — the bytes the client supplies before end of stream, so
`read n` returns up to `n` of them; `readFail msg` — the `read` call
raises an `OSError` (e.g. a reset inbound connection) whose text is
`msg`. -/
inductive BodyStream where
  | avail (bs : Bytes)
  | readFail (msg : String)

/-- Observable outcome of one invocation of the handler: how many times
the socket `connect` call ran, the byte strings delivered by completed
`sendall` calls (in order), and the response sent to the inbound
client. -/
structure Outcome where
  connects : Nat
  sentToBackend : List Bytes
  response : ClientResponse
deriving Repr, DecidableEq

/-- Source lines 123-130: the `except` branch sends a 502 with exactly two
explicit headers and the fixed JSON error shape around `str(e)`. -/
def errorResponse (msg : String) : ClientResponse :=
  ⟨502,
   [("Content-Type", "application/json"), ("Access-Control-Allow-Origin", "*")],
   encode ("\x7b\"success\": false, \"error\": \"Proxy error: " ++ msg ++ "\"\x7d")⟩

/-- Source line 73: `f"{method} {self.path} HTTP/1.1\r\n"`. -/
def request_line (method : String) (req : Request) : String :=
  method ++ " " ++ req.path ++ " HTTP/1.1\r\n"

/-- Source lines 74-83: the reconstructed outbound header block.  The
`Content-Length` line appears only when the parsed value is positive
(line 78), and the `Content-Type` line only when the inbound value is
present and truthy, i.e. a nonempty string (line 80). -/
def outboundHeaders (req : Request) (content_length : Int) : String :=
  "Host: localhost\r\n" ++ "Connection: close\r\n"
  ++ (if 0 < content_length then "Content-Length: " ++ pyStrInt content_length ++ "\r\n" else "")
  ++ (match req.contentType with
      | some ct => if ct = "" then "" else "Content-Type: " ++ ct ++ "\r\n"
      | none => "")
  ++ "\r\n"

/-- Source line 70: the body read from the inbound stream —
`self.rfile.read(content_length)` when the value is positive, else `b''`.
Reading `n` bytes yields at most `n` bytes (fewer when the stream ends). -/
def requestBody (req : Request) (content_length : Int) : Bytes :=
  if 0 < content_length then req.rfile.take content_length.toNat else []

/-- Source line 70 over a fallible stream: the `read` call runs only for a
positive Content-Length; on `avail` it returns up to that many bytes, on
`readFail` its `OSError` propagates to the handler's `except`. -/
def readBody (stream : BodyStream) (content_length : Int) : Except String Bytes :=
  match stream with
  | BodyStream.avail bs =>
    Except.ok (if 0 < content_length then bs.take content_length.toNat else [])
  | BodyStream.readFail msg =>
    if 0 < content_length then Except.error msg else Except.ok []

/-- Source line 86 for a given body:
`request_line.encode() + headers.encode() + body`. -/
def outboundBytes (method : String) (req : Request) (content_length : Int)
    (body : Bytes) : Bytes :=
  encode (request_line method req) ++ encode (outboundHeaders req content_length) ++ body

/-- Source line 86 when the body read completed. -/
def http_request (method : String) (req : Request) (content_length : Int) : Bytes :=
  outboundBytes method req content_length (requestBody req content_length)

/-- Source lines 102-121: split the accumulated backend bytes at the first
`\r\n\r\n`, decode the header block, take the first line as the status
line, split it on spaces (maxsplit 2), convert field 1 with `int`, and on
success relay status, fixed headers, a `Content-Length` of the relayed
body's byte length, and the body itself; every failure point raises into
the `except` branch (lines 123-130). -/
def parse_relay (sent response : Bytes) : Outcome :=
  match findSep response with
  | none => ⟨1, [sent], errorResponse "Invalid HTTP response"⟩
  | some headers_end =>
    match utf8Decode (response.take headers_end) with
    | none => ⟨1, [sent], errorResponse "utf-8 codec cannot decode"⟩
    | some hdrChars =>
      match (pySplitSpace2 (firstLineOf (String.mk hdrChars))).get? 1 with
      | none => ⟨1, [sent], errorResponse "list index out of range"⟩
      | some part =>
        match pyInt part with
        | none => ⟨1, [sent], errorResponse (intErrMsg part)⟩
        | some status_code =>
          ⟨1, [sent],
           ⟨status_code,
            [("Access-Control-Allow-Origin", "*"), ("Content-Type", "application/json"),
             ("Content-Length", natRepr (response.drop (headers_end + 4)).length)],
            response.drop (headers_end + 4)⟩⟩

/-- The handler body of `proxy_request` (source lines 65-130) over a
fallible inbound stream.  Each failure point of the `try` block maps to
the `except` branch producing `errorResponse`: the `int()` conversion of
`Content-Length` (line 69) and the body read (line 70) both run before
the socket connect (line 90), so their failures leave the backend
untouched; a connect or `sendall` failure opens at most one connection
and delivers no message; a `recv` failure happens after the one delivered
message; and a completed exchange is parsed and relayed by
`parse_relay`. -/
def proxy_request_stream (method : String) (req : Request) (stream : BodyStream)
    (backend : Backend) : Outcome :=
  match contentLengthVal req.contentLength with
  | Except.error msg => ⟨0, [], errorResponse msg⟩
  | Except.ok content_length =>
    match readBody stream content_length with
    | Except.error msg => ⟨0, [], errorResponse msg⟩
    | Except.ok body =>
      match backend with
      | Backend.noConnect msg => ⟨1, [], errorResponse msg⟩
      | Backend.sendError msg => ⟨1, [], errorResponse msg⟩
      | Backend.recvError msg =>
        ⟨1, [outboundBytes method req content_length body], errorResponse msg⟩
      | Backend.ok respond =>
        parse_relay (outboundBytes method req content_length body)
          (respond (outboundBytes method req content_length body))

/-- The handler for an inbound stream that supplies `req.rfile` and does
not raise: the specialization of `proxy_request_stream` the non-error
claims quantify over. -/
def proxy_request (method : String) (req : Request) (backend : Backend) : Outcome :=
  proxy_request_stream method req (BodyStream.avail req.rfile) backend

/-- Source lines 57-63: `do_OPTIONS` answers locally — status 200, the
three fixed CORS headers, empty body, and no socket activity. -/
def do_OPTIONS : Outcome :=
  ⟨0, [],
   ⟨200,
    [("Access-Control-Allow-Origin", "*"),
     ("Access-Control-Allow-Methods", "GET, POST, PUT, DELETE, OPTIONS"),
     ("Access-Control-Allow-Headers", "Content-Type")],
    []⟩⟩

/-- Method dispatch of `BaseHTTPRequestHandler`: `do_GET` and `do_POST`
(source lines 49-55) both delegate to `proxy_request` with the method
name; `do_OPTIONS` answers locally; other methods have no handler here. -/
def handle (req : Request) (backend : Backend) : Option Outcome :=
  match req.method with
  | "GET" => some (proxy_request "GET" req backend)
  | "POST" => some (proxy_request "POST" req backend)
  | "OPTIONS" => some do_OPTIONS
  | _ => none

/-- Is `pat` a contiguous substring of the byte string? -/
def hasSub (pat : Bytes) : Bytes → Bool
  | [] => pat.isEmpty
  | b :: t => (pat == (b :: t).take pat.length) || hasSub pat t

/-- Total number of backend connect calls over a sequence of handled
requests. -/
def totalConnects (runs : List Outcome) : Nat := (runs.map (·.connects)).sum

/-- Shape of a successfully relayed response's explicit header list
(source lines 117-119): the CORS header, the JSON content type, and a
`Content-Length` rendering the relayed body's byte length. -/
def relayShape (r : ClientResponse) : Prop :=
  r.headers = [("Access-Control-Allow-Origin", "*"), ("Content-Type", "application/json"),
    ("Content-Length", natRepr r.body.length)]

/-- CRLF-joined header lines followed by the blank line and the body:
the byte shape of a reconstructed outbound message, used to locate its
blank-line separator. -/
def linesJoin (ls : List Bytes) (tail : Bytes) : Bytes :=
  ls.foldr (fun l acc => l ++ 13 :: 10 :: acc) (13 :: 10 :: tail)

/-- Total byte length of the CRLF-joined lines, not counting the final
blank line. -/
def lineSum (ls : List Bytes) : Nat := (ls.map (fun l => l.length + 2)).sum



theorem encode_append (s t : String) : encode (s ++ t) = encode s ++ encode t := by
  simp [encode]

/-- Whatever bytes came back, the parse/relay stage reports one connect,
one sent message, and either the exact 502 error shape or the relayed
success shape. -/
theorem parse_relay_cases (sent response : Bytes) :
    (parse_relay sent response).connects = 1 ∧
    (parse_relay sent response).sentToBackend = [sent] ∧
    ((∃ m, (parse_relay sent response).response = errorResponse m) ∨
      relayShape (parse_relay sent response).response) := by
  unfold parse_relay
  repeat' split
  all_goals first
    | exact ⟨rfl, rfl, Or.inl ⟨_, rfl⟩⟩
    | exact ⟨rfl, rfl, Or.inr rfl⟩

theorem readBody_avail (bs : Bytes) (n : Int) :
    readBody (BodyStream.avail bs) n = Except.ok (if 0 < n then bs.take n.toNat else []) :=
  rfl

/-- One-step reduction of the handler once the Content-Length parsed. -/
theorem proxy_request_stream_eq (method : String) (req : Request) (stream : BodyStream)
    (backend : Backend) (n : Int)
    (hcl : contentLengthVal req.contentLength = Except.ok n) :
    proxy_request_stream method req stream backend =
      match readBody stream n with
      | Except.error msg => ⟨0, [], errorResponse msg⟩
      | Except.ok body =>
        match backend with
        | Backend.noConnect msg => ⟨1, [], errorResponse msg⟩
        | Backend.sendError msg => ⟨1, [], errorResponse msg⟩
        | Backend.recvError msg =>
          ⟨1, [outboundBytes method req n body], errorResponse msg⟩
        | Backend.ok respond =>
          parse_relay (outboundBytes method req n body)
            (respond (outboundBytes method req n body)) := by
  unfold proxy_request_stream
  rw [hcl]

theorem proxy_request_ok (method : String) (req : Request) (g : Bytes → Bytes) (n : Int)
    (hcl : contentLengthVal req.contentLength = Except.ok n) :
    proxy_request method req (Backend.ok g) =
      parse_relay (http_request method req n) (g (http_request method req n)) := by
  unfold proxy_request
  rw [proxy_request_stream_eq method req _ _ n hcl, readBody_avail]
  rfl

/-- For any inbound stream and backend, the handler's reply is either the
exact 502 error shape of the `except` branch or the relayed success shape;
no other response form exists (the handler never escapes the request
boundary). -/
theorem response_total_shape (method : String) (req : Request) (stream : BodyStream)
    (backend : Backend) :
    (∃ m, (proxy_request_stream method req stream backend).response = errorResponse m) ∨
      relayShape (proxy_request_stream method req stream backend).response := by
  cases hclv : contentLengthVal req.contentLength with
  | error msg =>
    refine Or.inl ⟨msg, ?_⟩
    unfold proxy_request_stream
    rw [hclv]
  | ok n =>
    rw [proxy_request_stream_eq method req stream backend n hclv]
    cases readBody stream n with
    | error msg => exact Or.inl ⟨msg, rfl⟩
    | ok body =>
      cases backend with
      | noConnect m => exact Or.inl ⟨m, rfl⟩
      | sendError m => exact Or.inl ⟨m, rfl⟩
      | recvError m => exact Or.inl ⟨m, rfl⟩
      | ok respond => exact (parse_relay_cases _ _).2.2

/-- Whenever the Content-Length value parses, a reachable backend receives
exactly one connection carrying exactly the reconstructed request bytes. -/
theorem proxy_sent (method : String) (req : Request) (g : Bytes → Bytes) (n : Int)
    (hcl : contentLengthVal req.contentLength = Except.ok n) :
    (proxy_request method req (Backend.ok g)).connects = 1 ∧
    (proxy_request method req (Backend.ok g)).sentToBackend = [http_request method req n] := by
  rw [proxy_request_ok method req g n hcl]
  exact ⟨(parse_relay_cases _ _).1, (parse_relay_cases _ _).2.1⟩

/-- C2: for every backend response containing a blank-line separator at
position k whose header block decodes and whose status line parses with
numeric code c, the relayed client response carries status c, body exactly
the bytes after the separator, and a Content-Length rendering that body's
byte length. -/
theorem response_relayed (method : String) (req : Request) (resp : Bytes) (k : Nat)
    (hdr : List Char) (p : String) (c : Int) (n : Int)
    (hcl : contentLengthVal req.contentLength = Except.ok n)
    (hsep : findSep resp = some k)
    (hdec : utf8Decode (resp.take k) = some hdr)
    (hp : (pySplitSpace2 (firstLineOf (String.mk hdr))).get? 1 = some p)
    (hc : pyInt p = some c) :
    (proxy_request method req (Backend.ok (fun _ => resp))).response =
      ⟨c, [("Access-Control-Allow-Origin", "*"), ("Content-Type", "application/json"),
           ("Content-Length", natRepr (resp.drop (k + 4)).length)],
       resp.drop (k + 4)⟩ := by
  rw [proxy_request_ok method req (fun _ => resp) n hcl]
  simp only [parse_relay, hsep, hdec, hp, hc]

/-- C2 witness at a concrete backend response. -/
theorem response_relayed_witness :
    (proxy_request "GET" ⟨"GET", "/", none, none, []⟩
        (Backend.ok (fun _ => encode "HTTP/1.1 200 OK\r\nA: b\r\n\r\nRESULT"))).response =
      ⟨200, [("Access-Control-Allow-Origin", "*"), ("Content-Type", "application/json"),
             ("Content-Length", "6")],
       encode "RESULT"⟩ :=
  (response_relayed "GET" ⟨"GET", "/", none, none, []⟩
      (encode "HTTP/1.1 200 OK\r\nA: b\r\n\r\nRESULT") 21
      ("HTTP/1.1 200 OK\r\nA: b").data "200" 200 0 rfl (by decide) (by decide)
      (by decide) (by decide)).trans (by decide)

/-- C4: any request dispatched with method OPTIONS is answered locally:
no connect call, no bytes sent, status 200, exactly the three CORS
headers, empty body. -/
theorem options_no_backend (p : String) (cl ct : Option String) (rf : Bytes)
    (backend : Backend) :
    handle ⟨"OPTIONS", p, cl, ct, rf⟩ backend = some do_OPTIONS ∧
    do_OPTIONS.connects = 0 ∧
    do_OPTIONS.sentToBackend = [] ∧
    do_OPTIONS.response.status = 200 ∧
    do_OPTIONS.response.headers =
      [("Access-Control-Allow-Origin", "*"),
       ("Access-Control-Allow-Methods", "GET, POST, PUT, DELETE, OPTIONS"),
       ("Access-Control-Allow-Headers", "Content-Type")] ∧
    do_OPTIONS.response.body = [] :=
  ⟨rfl, rfl, rfl, rfl, rfl, rfl⟩

/-- C8: with a parsable Content-Length and a reachable backend, a
forwarded request performs exactly one connect carrying exactly one
message, and running the identical request twice totals two independent
connections (the handler holds no connection state to reuse). -/
theorem one_connection_per_request (method : String) (req : Request) (f : Bytes → Bytes)
    (n : Int)
    (_hm : method = "GET" ∨ method = "POST")
    (hcl : contentLengthVal req.contentLength = Except.ok n) :
    (proxy_request method req (Backend.ok f)).connects = 1 ∧
    (proxy_request method req (Backend.ok f)).sentToBackend = [http_request method req n] ∧
    totalConnects [proxy_request method req (Backend.ok f),
      proxy_request method req (Backend.ok f)] = 2 := by
  obtain ⟨h1, h2⟩ := proxy_sent method req f n hcl
  exact ⟨h1, h2, by simp [totalConnects, h1]⟩

/-- C8 witness at a concrete request. -/
theorem one_connection_per_request_witness :
    (proxy_request "GET" ⟨"GET", "/", none, none, []⟩ (Backend.ok (fun _ => []))).connects = 1 ∧
    (proxy_request "GET" ⟨"GET", "/", none, none, []⟩
        (Backend.ok (fun _ => []))).sentToBackend =
      [http_request "GET" ⟨"GET", "/", none, none, []⟩ 0] ∧
    totalConnects [proxy_request "GET" ⟨"GET", "/", none, none, []⟩ (Backend.ok (fun _ => [])),
      proxy_request "GET" ⟨"GET", "/", none, none, []⟩ (Backend.ok (fun _ => []))] = 2 :=
  one_connection_per_request "GET" ⟨"GET", "/", none, none, []⟩ (fun _ => []) 0
    (Or.inl rfl) rfl

/-- C9: an unparsable Content-Length value fails in the `int()` call,
before the connect step: zero connect calls, nothing sent, and the client
gets the 502 error shape for the ValueError. -/
theorem bad_content_length_no_connect (method : String) (req : Request) (backend : Backend)
    (s : String) (hs : req.contentLength = some s) (hbad : pyInt s = none) :
    proxy_request method req backend = ⟨0, [], errorResponse (intErrMsg s)⟩ ∧
    (proxy_request method req backend).response.status = 502 := by
  have h1 : proxy_request method req backend = ⟨0, [], errorResponse (intErrMsg s)⟩ := by
    simp only [proxy_request, proxy_request_stream, contentLengthVal, hs, hbad]
  exact ⟨h1, by rw [h1]; rfl⟩

/-- C9 witness: a garbage Content-Length never contacts a live backend. -/
theorem bad_content_length_no_connect_witness :
    proxy_request "POST" ⟨"POST", "/x", some "abc", none, []⟩
        (Backend.ok (fun _ => encode "HTTP/1.1 200 OK\r\n\r\n")) =
      ⟨0, [], errorResponse (intErrMsg "abc")⟩ ∧
    (proxy_request "POST" ⟨"POST", "/x", some "abc", none, []⟩
        (Backend.ok (fun _ => encode "HTTP/1.1 200 OK\r\n\r\n"))).response.status = 502 :=
  bad_content_length_no_connect "POST" ⟨"POST", "/x", some "abc", none, []⟩
    (Backend.ok (fun _ => encode "HTTP/1.1 200 OK\r\n\r\n")) "abc" rfl (by decide)

/-- C10: the except-branch 502 response carries exactly the two explicit
headers Content-Type and Access-Control-Allow-Origin — in particular no
Content-Length — while its JSON body is nonempty. -/
theorem error_response_headers (m : String) :
    (errorResponse m).status = 502 ∧
    (errorResponse m).headers =
      [("Content-Type", "application/json"), ("Access-Control-Allow-Origin", "*")] ∧
    (∀ v, ("Content-Length", v) ∉ (errorResponse m).headers) ∧
    (errorResponse m).body ≠ [] := by
  refine ⟨rfl, rfl, ?_, ?_⟩
  · intro v hv
    simp [errorResponse] at hv
  · intro h
    rw [show (errorResponse m).body =
        encode ("\x7b\"success\": false, \"error\": \"Proxy error: " ++ m) ++ encode "\"\x7d"
      from encode_append _ _] at h
    exact absurd (List.append_eq_nil.mp h).2 (by decide)

/-- C5 counterexample: an inbound `Content-Length: 0` header is not
forwarded (the guard on source line 78 requires a positive value), and an
inbound empty `Content-Type` header is not forwarded either (the
truthiness test on line 80): in both cases the reconstructed request
contains no such header line at all. -/
theorem forwarded_headers_cex :
    (proxy_request "POST" ⟨"POST", "/", some "0", none, []⟩
        (Backend.ok (fun _ => []))).sentToBackend =
      [encode "POST / HTTP/1.1\r\nHost: localhost\r\nConnection: close\r\n\r\n"] ∧
    hasSub (encode "Content-Length")
      (encode "POST / HTTP/1.1\r\nHost: localhost\r\nConnection: close\r\n\r\n") = false ∧
    (proxy_request "POST" ⟨"POST", "/", none, some "", []⟩
        (Backend.ok (fun _ => []))).sentToBackend =
      [encode "POST / HTTP/1.1\r\nHost: localhost\r\nConnection: close\r\n\r\n"] ∧
    hasSub (encode "Content-Type")
      (encode "POST / HTTP/1.1\r\nHost: localhost\r\nConnection: close\r\n\r\n") = false := by
  exact ⟨by decide, by decide, by decide, by decide⟩

/-- C5 amended: the reconstructed outbound request consists of exactly the
request line with the same method and path, the fixed Host and Connection
headers, a Content-Length line if and only if the parsed inbound value is
positive (rendering that integer), a Content-Type line if and only if the
inbound value is present and nonempty (copied verbatim), the blank line,
and then the body; no other inbound header is forwarded. -/
theorem forwarded_headers_amended (method : String) (req : Request) (f : Bytes → Bytes)
    (n : Int)
    (hcl : contentLengthVal req.contentLength = Except.ok n) :
    (proxy_request method req (Backend.ok f)).sentToBackend =
      [encode (method ++ " " ++ req.path ++ " HTTP/1.1\r\n")
        ++ encode ("Host: localhost\r\n" ++ "Connection: close\r\n"
            ++ (if 0 < n then "Content-Length: " ++ pyStrInt n ++ "\r\n" else "")
            ++ (match req.contentType with
                | some ct => if ct = "" then "" else "Content-Type: " ++ ct ++ "\r\n"
                | none => "")
            ++ "\r\n")
        ++ (if 0 < n then req.rfile.take n.toNat else [])] :=
  (proxy_sent method req f n hcl).2

/-- C5 witness at a concrete request carrying both forwardable headers. -/
theorem forwarded_headers_amended_witness :
    (proxy_request "POST" ⟨"POST", "/a", some "3", some "application/json", encode "xyz"⟩
        (Backend.ok (fun _ => []))).sentToBackend =
      [encode "POST /a HTTP/1.1\r\nHost: localhost\r\nConnection: close\r\nContent-Length: 3\r\nContent-Type: application/json\r\n\r\n"
        ++ encode "xyz"] :=
  (forwarded_headers_amended "POST" ⟨"POST", "/a", some "3", some "application/json", encode "xyz"⟩
      (fun _ => []) 3 rfl).trans (by decide)

/-- C6 counterexample: the two-field status line `HTTP/1.1 200` (no reason
phrase) is not of the claimed three-field form, yet the code parses it and
relays status 200 instead of failing with a 502. -/
theorem status_line_two_fields_cex :
    (proxy_request "GET" ⟨"GET", "/", none, none, []⟩
        (Backend.ok (fun _ => encode "HTTP/1.1 200\r\n\r\nok"))).response.status = 200 ∧
    (proxy_request "GET" ⟨"GET", "/", none, none, []⟩
        (Backend.ok (fun _ => encode "HTTP/1.1 200\r\n\r\nok"))).response.body =
      encode "ok" := by
  exact ⟨by decide, by decide⟩

/-- C6 amended: the status line is split on single spaces with maxsplit 2;
the request fails with the 502 error shape when no second field exists or
when the second field does not parse as an integer, and otherwise the
relayed status code is the integer value of the second field (a third
field is not required). -/
theorem status_line_parse_amended (method : String) (req : Request) (resp : Bytes) (k : Nat)
    (hdr : List Char) (n : Int)
    (hcl : contentLengthVal req.contentLength = Except.ok n)
    (hsep : findSep resp = some k)
    (hdec : utf8Decode (resp.take k) = some hdr) :
    ((pySplitSpace2 (firstLineOf (String.mk hdr))).get? 1 = none →
      (proxy_request method req (Backend.ok (fun _ => resp))).response =
        errorResponse "list index out of range") ∧
    (∀ p, (pySplitSpace2 (firstLineOf (String.mk hdr))).get? 1 = some p →
      pyInt p = none →
      (proxy_request method req (Backend.ok (fun _ => resp))).response =
        errorResponse (intErrMsg p)) ∧
    (∀ p c, (pySplitSpace2 (firstLineOf (String.mk hdr))).get? 1 = some p →
      pyInt p = some c →
      (proxy_request method req (Backend.ok (fun _ => resp))).response.status = c) := by
  refine ⟨fun h1 => ?_, fun p h1 h2 => ?_, fun p c h1 h2 => ?_⟩
  · rw [proxy_request_ok method req (fun _ => resp) n hcl]
    simp only [parse_relay, hsep, hdec, h1]
  · rw [proxy_request_ok method req (fun _ => resp) n hcl]
    simp only [parse_relay, hsep, hdec, h1, h2]
  · rw [proxy_request_ok method req (fun _ => resp) n hcl]
    simp only [parse_relay, hsep, hdec, h1, h2]

/-- C6 witness: a concrete parsable status line relays its code. -/
theorem status_line_parse_amended_witness :
    (proxy_request "GET" ⟨"GET", "/", none, none, []⟩
        (Backend.ok (fun _ => encode "HTTP/1.1 404 NF\r\n\r\n"))).response.status = 404 :=
  (status_line_parse_amended "GET" ⟨"GET", "/", none, none, []⟩
      (encode "HTTP/1.1 404 NF\r\n\r\n") 15 ("HTTP/1.1 404 NF").data 0 rfl (by decide)
      (by decide)).2.2 "404" 404 (by decide) (by decide)

/-- C7 counterexample: a request declaring `Content-Length: 5` whose
stream supplies no body bytes is still forwarded with the header line
`Content-Length: 5`, while the bytes following the blank-line separator
of the forwarded message number zero — the declared value and the body
length disagree on the backend leg. -/
theorem content_length_invariant_cex :
    (proxy_request "POST" ⟨"POST", "/", some "5", none, []⟩
        (Backend.ok (fun _ => []))).sentToBackend =
      [encode "POST / HTTP/1.1\r\nHost: localhost\r\nConnection: close\r\nContent-Length: 5\r\n\r\n"] ∧
    findSep (encode "POST / HTTP/1.1\r\nHost: localhost\r\nConnection: close\r\nContent-Length: 5\r\n\r\n") =
      some 70 ∧
    (encode "POST / HTTP/1.1\r\nHost: localhost\r\nConnection: close\r\nContent-Length: 5\r\n\r\n").drop
      (70 + 4) = [] ∧
    pyInt "5" = some 5 := by
  exact ⟨by decide, by decide, by decide, by decide⟩

/-- C7 amended: when the inbound stream supplies at least the declared
number of body bytes, the declared positive Content-Length equals the byte
length of the body actually forwarded; with a non-positive value no body
is forwarded (and no Content-Length is declared); and on the client leg
every response is either the error shape, which declares no
Content-Length, or the relayed shape, whose declared Content-Length
renders exactly its body's byte length. -/
theorem content_length_invariant_amended (method : String) (req : Request) (n : Int)
    (hcl : contentLengthVal req.contentLength = Except.ok n)
    (hlen : n.toNat ≤ req.rfile.length) :
    (0 < n → (requestBody req n).length = n.toNat) ∧
    (¬ 0 < n → requestBody req n = []) ∧
    (∀ g, (proxy_request method req (Backend.ok g)).sentToBackend =
      [encode (request_line method req) ++ encode (outboundHeaders req n)
        ++ requestBody req n]) ∧
    (∀ backend, (∃ m, (proxy_request method req backend).response = errorResponse m) ∨
      relayShape (proxy_request method req backend).response) := by
  refine ⟨fun hpos => ?_, fun hneg => ?_, fun g => (proxy_sent method req g n hcl).2,
    fun backend => response_total_shape method req (BodyStream.avail req.rfile) backend⟩
  · simp [requestBody, hpos, List.length_take, Nat.min_eq_left hlen]
  · simp [requestBody, hneg]

/-- C7 witness at a concrete request supplying its declared three bytes. -/
theorem content_length_invariant_amended_witness :
    0 < (3 : Int) ∧
    (requestBody ⟨"POST", "/", some "3", none, encode "abc"⟩ 3).length = (3 : Int).toNat :=
  ⟨by decide,
   (content_length_invariant_amended "POST" ⟨"POST", "/", some "3", none, encode "abc"⟩ 3
      rfl (by decide)).1 (by decide)⟩

theorem utf8EncodeChar_mem (c : Char) (b : Nat) (hb : b ∈ utf8EncodeChar c) :
    b = c.toNat ∨ 128 ≤ b := by
  simp only [utf8EncodeChar] at hb
  rcases Nat.lt_or_ge c.toNat 128 with h1 | h1
  · rw [if_pos h1] at hb
    simp at hb
    exact Or.inl hb
  · rw [if_neg (Nat.not_lt.mpr h1)] at hb
    rcases Nat.lt_or_ge c.toNat 2048 with h2 | h2
    · rw [if_pos h2] at hb
      simp at hb
      rcases hb with hb | hb <;> omega
    · rw [if_neg (Nat.not_lt.mpr h2)] at hb
      rcases Nat.lt_or_ge c.toNat 65536 with h3 | h3
      · rw [if_pos h3] at hb
        simp at hb
        rcases hb with hb | hb | hb <;> omega
      · rw [if_neg (Nat.not_lt.mpr h3)] at hb
        simp at hb
        rcases hb with hb | hb | hb | hb <;> omega

theorem utf8EncodeChar_ne_nil (c : Char) : utf8EncodeChar c ≠ [] := by
  simp only [utf8EncodeChar]
  repeat' split
  all_goals simp

theorem encode_no13 (s : String) (h : ∀ c ∈ s.data, c.toNat ≠ 13) :
    ∀ b ∈ encode s, b ≠ 13 := by
  intro b hb hb13
  subst hb13
  simp only [encode] at hb
  obtain ⟨c, hc, hmem⟩ := List.mem_flatMap.mp hb
  rcases utf8EncodeChar_mem c 13 hmem with h1 | h1
  · exact h c hc h1.symm
  · omega

theorem encode_ne_nil (s : String) (h : s.data ≠ []) : encode s ≠ [] := by
  obtain ⟨c, cs, hcs⟩ := List.exists_cons_of_ne_nil h
  simp only [encode, hcs, List.flatMap_cons]
  simp [utf8EncodeChar_ne_nil]

theorem digitChar_toNat_ne13 (d : Nat) : (digitChar d).toNat ≠ 13 := by
  unfold digitChar
  split <;> decide

theorem natDigitsGo_no13 (fuel : Nat) : ∀ n acc, (∀ c ∈ acc, c.toNat ≠ 13) →
    ∀ c ∈ natDigitsGo fuel n acc, c.toNat ≠ 13 := by
  induction fuel with
  | zero => intro n acc hacc; simpa [natDigitsGo] using hacc
  | succ fuel ih =>
    intro n acc hacc
    simp only [natDigitsGo]
    split
    · exact hacc
    · refine ih (n / 10) _ ?_
      intro c hc
      rcases List.mem_cons.mp hc with h | h
      · subst h; exact digitChar_toNat_ne13 _
      · exact hacc c h

theorem natRepr_no13 (n : Nat) : ∀ c ∈ (natRepr n).data, c.toNat ≠ 13 := by
  unfold natRepr
  split
  · intro c hc
    simp at hc
    subst hc
    decide
  · exact natDigitsGo_no13 (n + 1) n [] (by simp)

theorem pyStrInt_no13 (i : Int) : ∀ c ∈ (pyStrInt i).data, c.toNat ≠ 13 := by
  unfold pyStrInt
  split
  · intro c hc
    rw [String.data_append] at hc
    rcases List.mem_append.mp hc with h | h
    · simp at h; subst h; decide
    · exact natRepr_no13 _ c h
  · exact natRepr_no13 _

theorem sepAt_cons_ne13 (b : Nat) (l : Bytes) (hb : b ≠ 13) : sepAt (b :: l) = false := by
  rcases l with _ | ⟨b1, _ | ⟨b2, _ | ⟨b3, t⟩⟩⟩ <;> simp [sepAt, hb]

theorem findSep_cons (b : Nat) (l : Bytes) :
    findSep (b :: l) = if sepAt (b :: l) then some 0 else (findSep l).map (· + 1) := rfl

theorem findSep_cons_ne13 (b : Nat) (l : Bytes) (hb : b ≠ 13) :
    findSep (b :: l) = (findSep l).map (· + 1) := by
  rw [findSep_cons, sepAt_cons_ne13 b l hb]
  simp

theorem findSep_append_no13 (l r : Bytes) (h : ∀ b ∈ l, b ≠ 13) :
    findSep (l ++ r) = (findSep r).map (· + l.length) := by
  induction l with
  | nil =>
    rw [List.nil_append]
    cases findSep r <;> simp
  | cons b t ih =>
    rw [List.cons_append, findSep_cons_ne13 b (t ++ r) (h b (by simp)),
      ih (fun x hx => h x (by simp [hx]))]
    cases findSep r <;> simp
    omega

theorem findSep_pattern (r : Bytes) : findSep (13 :: 10 :: 13 :: 10 :: r) = some 0 := by
  rw [findSep_cons]
  simp [sepAt]

theorem findSep_crlf (c : Nat) (t : Bytes) (hc : c ≠ 13) :
    findSep (13 :: 10 :: c :: t) = (findSep (c :: t)).map (· + 2) := by
  have h1 : sepAt (13 :: 10 :: c :: t) = false := by
    rcases t with _ | ⟨b3, t'⟩ <;> simp [sepAt, hc]
  rw [findSep_cons, h1, findSep_cons_ne13 10 (c :: t) (by decide)]
  cases findSep (c :: t) <;> simp

theorem linesJoin_nil (tail : Bytes) : linesJoin [] tail = 13 :: 10 :: tail := rfl

theorem linesJoin_cons (l : Bytes) (ls : List Bytes) (tail : Bytes) :
    linesJoin (l :: ls) tail = l ++ 13 :: 10 :: linesJoin ls tail := rfl

theorem lineSum_ge (l : Bytes) (ls : List Bytes) : 2 ≤ lineSum (l :: ls) := by
  simp [lineSum]
  omega

theorem findSep_linesJoin : ∀ (ls : List Bytes), ∀ (tail : Bytes), ls ≠ [] →
    (∀ l ∈ ls, l ≠ [] ∧ ∀ b ∈ l, b ≠ 13) →
    findSep (linesJoin ls tail) = some (lineSum ls - 2) := by
  intro ls
  induction ls with
  | nil => intro tail h; exact absurd rfl h
  | cons l ls ih =>
    intro tail _ h
    obtain ⟨hl_ne, hl13⟩ := h l (List.mem_cons_self l ls)
    rw [linesJoin_cons, findSep_append_no13 l _ hl13]
    cases ls with
    | nil =>
      rw [linesJoin_nil, findSep_pattern]
      simp [lineSum]
    | cons l2 ls2 =>
      obtain ⟨hl2_ne, hl2_13⟩ := h l2 (by simp)
      obtain ⟨c, cs, hc⟩ := List.exists_cons_of_ne_nil hl2_ne
      have hcl : linesJoin (l2 :: ls2) tail = c :: (cs ++ 13 :: 10 :: linesJoin ls2 tail) := by
        rw [linesJoin_cons, hc]
        simp
      have hc13 : c ≠ 13 := hl2_13 c (by rw [hc]; simp)
      rw [hcl, findSep_crlf c _ hc13, ← hcl,
        ih tail (by simp) (fun x hx => h x (by simp [hx]))]
      have h2 : 2 ≤ lineSum (l2 :: ls2) := lineSum_ge l2 ls2
      simp only [lineSum, List.map_cons, List.sum_cons] at h2 ⊢
      simp
      omega

theorem linesJoin_drop (ls : List Bytes) (tail : Bytes) :
    (linesJoin ls tail).drop (lineSum ls + 2) = tail := by
  induction ls with
  | nil => rfl
  | cons l ls ih =>
    have harr : lineSum (l :: ls) + 2 = l.length + (2 + (lineSum ls + 2)) := by
      simp [lineSum]
      omega
    rw [linesJoin_cons, harr, ← List.drop_drop, List.drop_left, ← List.drop_drop]
    simpa using ih

theorem findSep_drop_of_linesJoin (bs tail : Bytes) (ls : List Bytes)
    (hj : bs = linesJoin ls tail) (hne : ls ≠ [])
    (hcond : ∀ l ∈ ls, l ≠ [] ∧ ∀ b ∈ l, b ≠ 13) :
    ∃ k, findSep bs = some k ∧ bs.drop (k + 4) = tail := by
  subst hj
  refine ⟨lineSum ls - 2, findSep_linesJoin ls tail hne hcond, ?_⟩
  obtain ⟨l, ls', rfl⟩ := List.exists_cons_of_ne_nil hne
  have h2 : 2 ≤ lineSum (l :: ls') := lineSum_ge _ _
  have harr : lineSum (l :: ls') - 2 + 4 = lineSum (l :: ls') + 2 := by omega
  rw [harr, linesJoin_drop]


/-- The reconstructed outbound message always places its first `\r\n\r\n`
exactly between the header section and the body, provided the method,
path, and Content-Type value contain no carriage return. -/
theorem http_request_split (method : String) (req : Request) (L : Nat)
    (hL : 0 < L)
    (hm13 : ∀ b ∈ encode method, b ≠ 13)
    (hpath13 : ∀ b ∈ encode req.path, b ≠ 13)
    (hct13 : ∀ ct, req.contentType = some ct → ∀ b ∈ encode ct, b ≠ 13) :
    ∃ k, findSep (http_request method req (Int.ofNat L)) = some k ∧
      (http_request method req (Int.ofNat L)).drop (k + 4) =
        requestBody req (Int.ofNat L) := by
  have eSp : encode " " = [32] := by decide
  have eH : encode " HTTP/1.1\r\n" = encode " HTTP/1.1" ++ [13, 10] := by decide
  have eHC : encode "Host: localhost\r\nConnection: close\r\n" =
      encode "Host: localhost" ++ 13 :: 10 :: (encode "Connection: close" ++ [13, 10]) := by
    decide
  have eCrlf : encode "\r\n" = [13, 10] := by decide
  have hline1 : (encode method ++ [32] ++ encode req.path ++ encode " HTTP/1.1") ≠ [] ∧
      ∀ b ∈ encode method ++ [32] ++ encode req.path ++ encode " HTTP/1.1", b ≠ 13 := by
    constructor
    · intro hh
      exact absurd (List.append_eq_nil.mp hh).2 (by decide)
    · intro b hb
      rcases List.mem_append.mp hb with hb | hb
      · rcases List.mem_append.mp hb with hb | hb
        · rcases List.mem_append.mp hb with hb | hb
          · exact hm13 b hb
          · simp at hb; omega
        · exact hpath13 b hb
      · exact (by decide : ∀ x ∈ encode " HTTP/1.1", x ≠ 13) b hb
  have hline4 : (encode "Content-Length: " ++ encode (pyStrInt (Int.ofNat L))) ≠ [] ∧
      ∀ b ∈ encode "Content-Length: " ++ encode (pyStrInt (Int.ofNat L)), b ≠ 13 := by
    constructor
    · intro hh
      exact absurd (List.append_eq_nil.mp hh).1 (by decide)
    · intro b hb
      rcases List.mem_append.mp hb with hb | hb
      · exact (by decide : ∀ x ∈ encode "Content-Length: ", x ≠ 13) b hb
      · exact encode_no13 _ (pyStrInt_no13 _) b hb
  rcases hctv : req.contentType with _ | ct
  · have hjoin : http_request method req (Int.ofNat L) =
        linesJoin
          [encode method ++ [32] ++ encode req.path ++ encode " HTTP/1.1",
           encode "Host: localhost", encode "Connection: close",
           encode "Content-Length: " ++ encode (pyStrInt (Int.ofNat L))]
          (requestBody req (Int.ofNat L)) := by
      simp [http_request, outboundBytes, request_line, outboundHeaders, linesJoin,
        encode_append, hL, hctv, eSp, eH, eHC, eCrlf, List.append_assoc]
    refine findSep_drop_of_linesJoin _ _ _ hjoin (by simp) ?_
    intro l hl
    simp only [List.mem_cons, List.not_mem_nil, or_false] at hl
    rcases hl with rfl | rfl | rfl | rfl
    · exact hline1
    · exact ⟨by decide, by decide⟩
    · exact ⟨by decide, by decide⟩
    · exact hline4
  · by_cases hem : ct = ""
    · subst hem
      have hjoin : http_request method req (Int.ofNat L) =
          linesJoin
            [encode method ++ [32] ++ encode req.path ++ encode " HTTP/1.1",
             encode "Host: localhost", encode "Connection: close",
             encode "Content-Length: " ++ encode (pyStrInt (Int.ofNat L))]
            (requestBody req (Int.ofNat L)) := by
        simp [http_request, outboundBytes, request_line, outboundHeaders, linesJoin,
          encode_append, hL, hctv, eSp, eH, eHC, eCrlf, List.append_assoc]
      refine findSep_drop_of_linesJoin _ _ _ hjoin (by simp) ?_
      intro l hl
      simp only [List.mem_cons, List.not_mem_nil, or_false] at hl
      rcases hl with rfl | rfl | rfl | rfl
      · exact hline1
      · exact ⟨by decide, by decide⟩
      · exact ⟨by decide, by decide⟩
      · exact hline4
    · have hjoin : http_request method req (Int.ofNat L) =
          linesJoin
            [encode method ++ [32] ++ encode req.path ++ encode " HTTP/1.1",
             encode "Host: localhost", encode "Connection: close",
             encode "Content-Length: " ++ encode (pyStrInt (Int.ofNat L)),
             encode "Content-Type: " ++ encode ct]
            (requestBody req (Int.ofNat L)) := by
        simp [http_request, outboundBytes, request_line, outboundHeaders, linesJoin,
          encode_append, hL, hctv, hem, eSp, eH, eHC, eCrlf, List.append_assoc]
      refine findSep_drop_of_linesJoin _ _ _ hjoin (by simp) ?_
      intro l hl
      simp only [List.mem_cons, List.not_mem_nil, or_false] at hl
      rcases hl with rfl | rfl | rfl | rfl | rfl
      · exact hline1
      · exact ⟨by decide, by decide⟩
      · exact ⟨by decide, by decide⟩
      · exact hline4
      · constructor
        · intro hh
          exact absurd (List.append_eq_nil.mp hh).1 (by decide)
        · intro b hb
          rcases List.mem_append.mp hb with hb | hb
          · exact (by decide : ∀ x ∈ encode "Content-Type: ", x ≠ 13) b hb
          · exact hct13 ct hctv b hb

/-- C1: for a GET or POST request whose positive declared Content-Length L
matches the length of the supplied body stream (and whose textual fields
carry no stray carriage return), the message sent to the backend has its
first blank-line separator exactly before the body: the bytes after it
are the client's body, byte for byte, of length exactly L. -/
theorem body_forwarded_exactly (method : String) (req : Request) (f : Bytes → Bytes)
    (L : Nat) (s : String)
    (hm : method = "GET" ∨ method = "POST")
    (hs : req.contentLength = some s)
    (hps : pyInt s = some (Int.ofNat L))
    (hL : 0 < L)
    (hbody : req.rfile.length = L)
    (hpath : ∀ c ∈ req.path.data, c.toNat ≠ 13)
    (hct : ∀ ct, req.contentType = some ct → ∀ c ∈ ct.data, c.toNat ≠ 13) :
    ∃ bs k, (proxy_request method req (Backend.ok f)).sentToBackend = [bs] ∧
      findSep bs = some k ∧ bs.drop (k + 4) = req.rfile ∧ (bs.drop (k + 4)).length = L := by
  have hclv : contentLengthVal req.contentLength = Except.ok (Int.ofNat L) := by
    simp [contentLengthVal, hs, hps]
  have hsent := (proxy_sent method req f (Int.ofNat L) hclv).2
  have hm13 : ∀ b ∈ encode method, b ≠ 13 := by
    rcases hm with rfl | rfl
    · decide
    · decide
  have hrb : requestBody req (Int.ofNat L) = req.rfile := by
    have hp : (0 : Int) < Int.ofNat L := Int.ofNat_pos.mpr hL
    simp only [requestBody]
    rw [if_pos hp, show (Int.ofNat L).toNat = L from rfl, ← hbody, List.take_length]
  obtain ⟨k, hk1, hk2⟩ := http_request_split method req L hL hm13
    (encode_no13 _ hpath) (fun ct hct' => encode_no13 _ (hct ct hct'))
  refine ⟨http_request method req (Int.ofNat L), k, hsent, hk1, ?_, ?_⟩
  · rw [hk2, hrb]
  · rw [hk2, hrb, hbody]

/-- C1 witness at a concrete three-byte POST body. -/
theorem body_forwarded_exactly_witness :
    ∃ bs k,
      (proxy_request "POST" ⟨"POST", "/nav", some "3", some "application/json", encode "abc"⟩
          (Backend.ok (fun _ => []))).sentToBackend = [bs] ∧
      findSep bs = some k ∧ bs.drop (k + 4) = encode "abc" ∧ (bs.drop (k + 4)).length = 3 :=
  body_forwarded_exactly "POST"
    ⟨"POST", "/nav", some "3", some "application/json", encode "abc"⟩
    (fun _ => []) 3 "3" (Or.inr rfl) rfl (by decide) (by decide) (by decide) (by decide)
    (fun ct hct => by injection hct with h; subst h; decide)
